import Mathlib

/-!
Verification of the vegetarian menu-item extraction service.

This file shallowly embeds the classification and calculation core of the
repository (`src/src/mcp/...`) in Lean 4 and proves/refutes the frozen
claims about it.  Python floats are idealised as `ℚ`; Python `round` (banker's
rounding) is `pyRound`; dictionaries whose relevant keys are always present
are embedded as structures; external effects (the embedding model, the Chroma
collection, the LLM transport) enter as explicit parameters, so that every
theorem quantifies over their behaviour.
-/

/-- Python `round(q, n)` idealised over `ℚ`: round half to even
(banker's rounding) at `n` decimal digits. -/
def roundHalfEven (q : ℚ) : ℤ :=
  let f := ⌊q⌋
  let r := q - f
  if r < 1/2 then f
  else if 1/2 < r then f + 1
  else if f % 2 = 0 then f else f + 1

/-- Python `round(q, ndigits)`, on rationals. -/
def pyRound (ndigits : ℕ) (q : ℚ) : ℚ :=
  (roundHalfEven (q * 10 ^ ndigits) : ℚ) / 10 ^ ndigits

/-- Python `str.lower()`, ASCII idealisation, embedded over the character
list so that concrete instances evaluate. -/
def pyLower (s : String) : String := ⟨s.data.map Char.toLower⟩

/-- A tier result dictionary as produced by the keyword / RAG / LLM tiers of
`LLMClassifier` (`src/src/mcp/llm/classifier.py`).  `is_vegetarian = none`
embeds Python `None` ("no opinion").  Dictionaries missing a key that is only
read through `.get` with a default are embedded with that default filled in
(e.g. the empty dict `{}` becomes `⟨none, 0, "", ""⟩`). -/
structure TierResult where
  is_vegetarian : Option Bool
  confidence : ℚ
  reasoning : String
  method : String
  deriving DecidableEq

/-- A RAG hit as returned by `VectorStore.search`
(`src/src/mcp/rag/vectorstore.py`): the metadata dictionary is flattened into
`meta*` fields.  `metaIsVeg = none` embeds a metadata record without an
`is_vegetarian` key; `metaCategory = none` embeds a missing `category`. -/
structure RagHit where
  id : String
  document : String
  metaName : String
  metaIsVeg : Option Bool
  metaType : String
  metaCategory : Option String
  distance : ℚ
  relevance_score : ℚ
  deriving DecidableEq

/-- A raw nearest-neighbour row coming back from the Chroma collection query
(external to the repository); `VectorStore.search` maps these to `RagHit`s. -/
structure RawHit where
  id : String
  document : String
  metaName : String
  metaIsVeg : Option Bool
  metaType : String
  metaCategory : Option String
  distance : ℚ
  deriving DecidableEq

namespace VectorStore

/-- Embedding of `VectorStore.search` (`src/src/mcp/rag/vectorstore.py`, lines 128-166):
the embedding of the query and the nearest-neighbour lookup are external
(Chroma), so the raw result rows are a parameter; the function builds one
output item per row with `relevance_score = 1 - distance` (no clamping
appears in the source). -/
def search (raw : List RawHit) : List RagHit :=
  raw.map (fun r =>
    { id := r.id
      document := r.document
      metaName := r.metaName
      metaIsVeg := r.metaIsVeg
      metaType := r.metaType
      metaCategory := r.metaCategory
      distance := r.distance
      relevance_score := 1 - r.distance })

end VectorStore

/-- Python `\w` word character, ASCII idealisation: letters, digits, `_`. -/
def isWordChar (c : Char) : Bool :=
  c.isAlphanum || c = '_'

/-- Predicate for `\b` between an optional left character and an optional right character:
exactly one side is a word character (absent counts as non-word). -/
def wordBoundaryBetween (l r : Option Char) : Bool :=
  (l.map isWordChar).getD false != (r.map isWordChar).getD false

/-- Does `needle` begin `hay`? (plain character-list comparison). -/
def beginsWith : List Char → List Char → Bool
  | [], _ => true
  | _ :: _, [] => false
  | a :: as, b :: bs => a = b && beginsWith as bs

/-- Substring containment, Python `needle in hay` on strings. -/
def containsSeq (needle hay : List Char) : Bool :=
  (List.range (hay.length + 1)).any (fun i => beginsWith needle (hay.drop i))

/-- Test that `re.search(rf"\b\x7bre.escape(kw)\x7d\b", s)` succeeds: `kw` occurs in `s` with
a `\b` word boundary on both sides (the keyword is regex-escaped in the
source, so it matches literally). -/
def wordBoundarySearch (kw : List Char) (s : List Char) : Bool :=
  (List.range (s.length + 1)).any (fun i =>
    beginsWith kw (s.drop i)
      && wordBoundaryBetween ((s.take i).getLast?) kw.head?
      && wordBoundaryBetween kw.getLast? ((s.drop (i + kw.length)).head?))

namespace LLMClassifier

/-- Embedding of `LLMClassifier._keyword_classification`
(`src/src/mcp/llm/classifier.py`, lines 123-173).  The three keyword
collections are Python sets built lower-cased at construction; set iteration
order is unspecified and only influences which matching keyword is named in
the reasoning string, so they are embedded as lists. -/
def _keyword_classification (markers positives negatives : List String)
    (dish_name : String) : TierResult :=
  let name_lower := pyLower dish_name
  match markers.find? (fun m => containsSeq m.toList name_lower.toList) with
  | some m =>
    { is_vegetarian := some true, confidence := 19/20,
      reasoning := "Contains vegetarian marker: \x27" ++ m ++ "\x27",
      method := "keyword" }
  | none =>
  match positives.find? (fun kw => wordBoundarySearch kw.toList name_lower.toList) with
  | some kw =>
    { is_vegetarian := some true, confidence := 19/20,
      reasoning := "Contains vegetarian indicator: \x27" ++ kw ++ "\x27",
      method := "keyword" }
  | none =>
  match negatives.find? (fun kw => wordBoundarySearch kw.toList name_lower.toList) with
  | some kw =>
    { is_vegetarian := some false, confidence := 19/20,
      reasoning := "Contains non-vegetarian ingredient: \x27" ++ kw ++ "\x27",
      method := "keyword" }
  | none =>
    { is_vegetarian := none, confidence := 0,
      reasoning := "No keyword match", method := "keyword" }

/-- The per-hit evidence accumulation of `_analyze_rag_evidence`
(lines 216-233): fold computing `veg_score`, `non_veg_score`, `reasons`. -/
def ragScores : List RagHit → ℚ × ℚ × List String
  | [] => (0, 0, [])
  | hit :: rest =>
    let (v, n, rs) := ragScores rest
    if hit.relevance_score < 3/10 then (v, n, rs)
    else
      match hit.metaIsVeg with
      | some true => (v + hit.relevance_score, n, (hit.metaName ++ " (vegetarian)") :: rs)
      | some false => (v, n + hit.relevance_score, (hit.metaName ++ " (non-vegetarian)") :: rs)
      | none => (v, n, rs)

/-- Embedding of `LLMClassifier._analyze_rag_evidence` (lines 192-257). -/
def _analyze_rag_evidence (evidence : List RagHit) (_dish_name : String) : TierResult :=
  match evidence with
  | [] =>
    { is_vegetarian := none, confidence := 0,
      reasoning := "No relevant evidence found", method := "rag" }
  | _ :: _ =>
    let (veg_score, non_veg_score, reasons) := ragScores evidence
    if veg_score > non_veg_score ∧ veg_score > 1/2 then
      { is_vegetarian := some true,
        confidence := min (17/20) (veg_score / (veg_score + non_veg_score + 1/10)),
        reasoning := "Similar to: " ++ String.intercalate ", " (reasons.take 3),
        method := "rag" }
    else if non_veg_score > veg_score ∧ non_veg_score > 1/2 then
      { is_vegetarian := some false,
        confidence := min (17/20) (non_veg_score / (veg_score + non_veg_score + 1/10)),
        reasoning := "Similar to: " ++ String.intercalate ", " (reasons.take 3),
        method := "rag" }
    else
      { is_vegetarian := none, confidence := 3/10,
        reasoning := "Inconclusive RAG evidence", method := "rag" }

/-- Embedding of `LLMClassifier._parse_llm_response` (lines 312-332), at the granularity of
the extracted JSON object: the regex/`json.loads` step is string plumbing, and
on success the code packages `data.get("is_vegetarian")` and
`float(data.get("confidence", 0.7))` without any range check, so arbitrary
(`conf` possibly outside `[0,1]`) values are accepted. -/
def _parse_llm_fields (isVeg : Option Bool) (conf : ℚ) (reasoning : String) : TierResult :=
  { is_vegetarian := isVeg, confidence := conf,
    reasoning := reasoning, method := "llm" }

/-- Embedding of `LLMClassifier._combine_results` (lines 450-511). -/
def _combine_results (keyword rag llm : TierResult) : TierResult :=
  let results : List (TierResult × ℚ) := [(keyword, 2/5), (rag, 3/10), (llm, 3/10)]
  let valid_results := results.filter (fun rw => rw.1.is_vegetarian.isSome)
  if hv : valid_results = [] then
    { is_vegetarian := none, confidence := 0,
      reasoning := "Unable to classify", method := "combined" }
  else
    let weighted_sum :=
      (valid_results.map (fun rw =>
        (if rw.1.is_vegetarian = some true then (1:ℚ) else 0) * rw.1.confidence * rw.2)).sum
    let total_weight := (valid_results.map (fun rw => rw.1.confidence * rw.2)).sum
    if total_weight = 0 then (valid_results.head hv).1
    else
      let p := weighted_sum / total_weight
      { is_vegetarian := some (decide (1/2 < p)),
        confidence := pyRound 3 (|p - 1/2| * 2),
        reasoning := String.intercalate "; "
          ((valid_results.filterMap (fun rw =>
            if rw.1.reasoning = "" then none else some rw.1.reasoning)).take 2),
        method := "combined" }

end LLMClassifier

namespace CalculatorTool

/-- Result of `CalculatorTool.execute`. -/
structure CalcResult where
  total_sum : ℚ
  item_count : ℕ
  deriving DecidableEq

/-- Embedding of `CalculatorTool.execute` (`src/src/mcp/tools/calculator.py`, lines 16-56),
generic over the item representation: `priceOf` embeds
`item.get("price", 0.0)` together with the `isinstance(price, (int, float))`
test — `none` stands for a non-numeric price value (a missing key defaults to
the numeric `0.0`).  Only numeric, strictly positive prices are accumulated
and counted; the accumulated total is rounded to two decimals. -/
def execute {α : Type} (priceOf : α → Option ℚ) (vegetarian_items : List α) : CalcResult :=
  let acc := vegetarian_items.foldl
    (fun (tc : ℚ × ℕ) item =>
      match priceOf item with
      | some price => if 0 < price then (tc.1 + price, tc.2 + 1) else tc
      | none => tc)
    (0, 0)
  { total_sum := pyRound 2 acc.1, item_count := acc.2 }

/-- An original item handed to `recompute_with_corrections`: the keys the
function reads.  `price = none` embeds a non-numeric price value;
`is_vegetarian` is the truthiness of `item.get("is_vegetarian", False)`. -/
structure RecompItem where
  name : String
  price : Option ℚ
  is_vegetarian : Bool
  deriving DecidableEq

/-- One entry of the `corrections` list: `{"name": ..., "is_vegetarian": ...}`. -/
structure Correction where
  name : String
  is_vegetarian : Bool
  deriving DecidableEq

/-- An entry of the `vegetarian_items` list built by
`recompute_with_corrections`: either a freshly built dict for a
human-corrected item (`{"name", "price", "confidence": 1.0,
"reasoning": "Human verified"}` — the two constant fields are left implicit)
or the original item dict kept verbatim. -/
inductive VegEntry
  | corrected (name : String) (price : Option ℚ)
  | kept (item : RecompItem)
  deriving DecidableEq

/-- The price a later `sum`/`execute` reads off a `VegEntry`
(`i.get("price", 0.0)`). -/
def VegEntry.price : VegEntry → Option ℚ
  | corrected _ p => p
  | kept item => item.price

/-- The `correction_map` dict comprehension (calculator.py lines 82-85):
keys are lower-cased correction names, bound left to right, so the final
binding of a key is the *last* correction carrying it. -/
def correctionMap (corrections : List Correction) (key : String) : Option Bool :=
  match corrections.reverse.find? (fun c => pyLower c.name == key) with
  | some c => some c.is_vegetarian
  | none => none

/-- The item loop of `recompute_with_corrections` (lines 87-102), against an
already-built correction lookup. -/
def selectVegItems (lookup : String → Option Bool) : List RecompItem → List VegEntry
  | [] => []
  | item :: rest =>
    let tail := selectVegItems lookup rest
    match lookup (pyLower item.name) with
    | some b => if b then .corrected item.name item.price :: tail else tail
    | none => if item.is_vegetarian then .kept item :: tail else tail

/-- Python `sum(...)` over the selected prices; `none` embeds the `TypeError`
Python raises when a non-numeric price meets `+`. -/
def sumPrices : List (Option ℚ) → Option ℚ
  | [] => some 0
  | none :: _ => none
  | some q :: rest => (sumPrices rest).map (fun s => q + s)

/-- Result of `recompute_with_corrections`. -/
structure RecompResult where
  vegetarian_items : List VegEntry
  total_sum : ℚ
  corrections_applied : ℕ
  deriving DecidableEq

/-- Embedding of `CalculatorTool.recompute_with_corrections` (calculator.py, lines 58-115).
Unlike `execute`, the total is `round(sum(prices), 2)` with **no**
positivity or numeric filter; `none` embeds the uncaught `TypeError` on a
non-numeric price. -/
def recompute_with_corrections (items : List RecompItem)
    (corrections : List Correction) : Option RecompResult :=
  let veg := selectVegItems (correctionMap corrections) items
  match sumPrices (veg.map VegEntry.price) with
  | some s =>
    some { vegetarian_items := veg, total_sum := pyRound 2 s,
           corrections_applied := corrections.length }
  | none => none

end CalculatorTool

/-- A menu item as read by the classifier tool
(`item.get("name", "")`, `item.get("price", 0.0)`,
`item.get("source_image", 1)` — the `.get` defaults are resolved at
construction). -/
structure MenuItem where
  name : String
  price : ℚ
  source_image : ℕ
  deriving DecidableEq

/-- A classified item as placed into the vegetarian / non-vegetarian /
uncertain buckets by `ClassifierTool` (`src/src/mcp/tools/classifier.py`).
`suggested_classification` is `none` when the key is absent (confident items)
and `some g` when present (uncertain items, `g` the best guess). -/
structure ClassifiedItem where
  name : String
  price : ℚ
  confidence : ℚ
  reasoning : String
  evidence : List String
  source_image : ℕ
  method : String
  suggested_classification : Option (Option Bool)
  deriving DecidableEq

/-- An `all_items` entry: the classified item plus provenance fields. -/
structure AllItem where
  name : String
  price : ℚ
  confidence : ℚ
  reasoning : String
  evidence : List String
  source_image : ℕ
  method : String
  is_vegetarian : Option Bool
  currency : String
  related_ingredients : List String
  category : Option String
  deriving DecidableEq

/-- What `LLMClassifier.classify` returns, at the keys
`ClassifierTool._execute_sequential` reads off it. -/
structure ClassifyOut where
  is_vegetarian : Option Bool
  confidence : ℚ
  reasoning : String
  evidence : List String
  method : String
  deriving DecidableEq

/-- The four output lists of `ClassifierTool.execute`. -/
structure Buckets where
  vegetarian_items : List ClassifiedItem
  non_vegetarian_items : List ClassifiedItem
  uncertain_items : List ClassifiedItem
  all_items : List AllItem
  deriving DecidableEq

/-- A `needs_llm` entry of `_execute_with_batch` (classifier.py lines
207-224). -/
structure PendItem where
  name : String
  price : ℚ
  source_image : ℕ
  evidence : List RagHit
  rag_result : TierResult
  related_ingredients : List String
  deriving DecidableEq

/-- The configured thresholds the classifier tool reads
(`configs/settings.py` defaults: 0.6, 0.4, true, 8). -/
structure Settings where
  confidence_threshold : ℚ
  hitl_threshold : ℚ
  llm_batch_enabled : Bool
  llm_batch_size : ℕ

/-- The external collaborators of `ClassifierTool`, as oracles:
`classifySingle` is the engine's `LLMClassifier.classify` (which performs LLM
I/O); `ragSearch` is `_retrieve_evidence` = `VectorStore.search` on the
(external) embedder and collection; `batchLLM` is `classify_batch_llm`, whose
returned name-keyed dict is embedded as a lookup function (`none` = name
absent from the dict, in which case the source substitutes `{}`).  The three
keyword lists feed the real `_keyword_classification`. -/
structure ClassifierEnv where
  markers : List String
  positives : List String
  negatives : List String
  classifySingle : String → ClassifyOut
  ragSearch : String → List RagHit
  batchLLM : List (String × List RagHit) → String → Option TierResult

namespace ClassifierTool

/-- Embedding of `ClassifierTool._execute_sequential` (classifier.py, lines 63-126),
written by structural recursion: consing an item's outputs onto the
recursive result is the functional form of the source's in-order
`list.append`s. -/
def _execute_sequential (hitl_threshold : ℚ) (classifyFn : String → ClassifyOut) :
    List MenuItem → Buckets
  | [] => ⟨[], [], [], []⟩
  | item :: rest =>
    let tail := _execute_sequential hitl_threshold classifyFn rest
    let result := classifyFn item.name
    let classified_item : ClassifiedItem :=
      { name := item.name, price := item.price, confidence := result.confidence,
        reasoning := result.reasoning, evidence := result.evidence,
        source_image := item.source_image, method := result.method,
        suggested_classification := none }
    let all_entry : AllItem :=
      { name := item.name, price := item.price, confidence := result.confidence,
        reasoning := result.reasoning, evidence := result.evidence,
        source_image := item.source_image, method := result.method,
        is_vegetarian := result.is_vegetarian, currency := "USD",
        related_ingredients := [], category := none }
    if result.is_vegetarian = none ∨ result.confidence < hitl_threshold then
      { tail with
        uncertain_items :=
          { classified_item with suggested_classification := some result.is_vegetarian }
            :: tail.uncertain_items,
        all_items := all_entry :: tail.all_items }
    else if result.is_vegetarian = some true then
      { tail with vegetarian_items := classified_item :: tail.vegetarian_items,
                  all_items := all_entry :: tail.all_items }
    else
      { tail with non_vegetarian_items := classified_item :: tail.non_vegetarian_items,
                  all_items := all_entry :: tail.all_items }

/-- Output of the first (keyword/RAG) pass of `_execute_with_batch`. -/
structure Pass1Out where
  veg : List ClassifiedItem
  nonveg : List ClassifiedItem
  needs : List PendItem
  alls : List AllItem
  deriving DecidableEq

/-- First pass of `_execute_with_batch` (classifier.py, lines 147-224):
keyword-decisive items bucket immediately; otherwise RAG runs and either
buckets the item (when `confidence ≥ confidence_threshold` and the verdict is
non-null — note the null-verdict sub-branch still appends to `all_items` AND
defers the item) or defers it to the LLM pass. -/
def batchPass1 (env : ClassifierEnv) (st : Settings) : List MenuItem → Pass1Out
  | [] => ⟨[], [], [], []⟩
  | item :: rest =>
    let tail := batchPass1 env st rest
    let kwr := LLMClassifier._keyword_classification env.markers env.positives
      env.negatives item.name
    if 9/10 ≤ kwr.confidence then
      let classified_item : ClassifiedItem :=
        { name := item.name, price := item.price, confidence := kwr.confidence,
          reasoning := kwr.reasoning, evidence := [],
          source_image := item.source_image, method := "keyword",
          suggested_classification := none }
      let all_entry : AllItem :=
        { name := item.name, price := item.price, confidence := kwr.confidence,
          reasoning := kwr.reasoning, evidence := [],
          source_image := item.source_image, method := "keyword",
          is_vegetarian := kwr.is_vegetarian, currency := "USD",
          related_ingredients := [], category := none }
      if kwr.is_vegetarian = some true then
        { tail with veg := classified_item :: tail.veg, alls := all_entry :: tail.alls }
      else
        { tail with nonveg := classified_item :: tail.nonveg, alls := all_entry :: tail.alls }
    else
      let rag_evidence := env.ragSearch item.name
      let rag_result := LLMClassifier._analyze_rag_evidence rag_evidence item.name
      let related_ingredients :=
        ((rag_evidence.take 3).filter (fun e => e.metaType == "ingredient")).map
          (fun e => e.metaName)
      let pend : PendItem :=
        { name := item.name, price := item.price, source_image := item.source_image,
          evidence := rag_evidence, rag_result := rag_result,
          related_ingredients := related_ingredients }
      if st.confidence_threshold ≤ rag_result.confidence then
        let classified_item : ClassifiedItem :=
          { name := item.name, price := item.price, confidence := rag_result.confidence,
            reasoning := rag_result.reasoning,
            evidence := (rag_evidence.take 3).map (fun e => e.document),
            source_image := item.source_image, method := "rag",
            suggested_classification := none }
        let all_entry : AllItem :=
          { name := item.name, price := item.price, confidence := rag_result.confidence,
            reasoning := rag_result.reasoning,
            evidence := (rag_evidence.take 3).map (fun e => e.document),
            source_image := item.source_image, method := "rag",
            is_vegetarian := rag_result.is_vegetarian, currency := "USD",
            related_ingredients := related_ingredients,
            category := match rag_evidence with
              | [] => none
              | e :: _ => e.metaCategory }
        if rag_result.is_vegetarian = some true then
          { tail with veg := classified_item :: tail.veg, alls := all_entry :: tail.alls }
        else if rag_result.is_vegetarian = some false then
          { tail with nonveg := classified_item :: tail.nonveg, alls := all_entry :: tail.alls }
        else
          { tail with needs := pend :: tail.needs, alls := all_entry :: tail.alls }
      else
        { tail with needs := pend :: tail.needs }

/-- The `needs_llm[i : i+batch_size]` slicing of the loop at classifier.py lines
232-234.  The `0` case embeds nothing from the source: Python
`range(0, n, 0)` raises, so a deployment always has a positive batch size;
theorems about the batch path assume `0 < llm_batch_size`. -/
def chunkList {α : Type} : ℕ → List α → List (List α)
  | _, [] => []
  | 0, x :: xs => [x :: xs]
  | n + 1, x :: xs => (x :: xs.take n) :: chunkList (n + 1) (xs.drop n)
  termination_by _ l => l.length
  decreasing_by simp only [List.length_cons, List.length_drop]; omega

/-- The inner loop over one LLM batch (classifier.py, lines 240-278), given
the parsed batch-result lookup `res`: a missing name yields the empty dict,
the keyword argument to `_combine_results` is the literal
`{"is_vegetarian": None, "confidence": 0, "reasoning": ""}`. -/
def processPend (st : Settings) (res : String → Option TierResult) :
    List PendItem → Buckets
  | [] => ⟨[], [], [], []⟩
  | it :: rest =>
    let tail := processPend st res rest
    let llm_result := (res it.name).getD ⟨none, 0, "", ""⟩
    let combined := LLMClassifier._combine_results ⟨none, 0, "", ""⟩ it.rag_result llm_result
    let classified_item : ClassifiedItem :=
      { name := it.name, price := it.price, confidence := combined.confidence,
        reasoning := combined.reasoning,
        evidence := (it.evidence.take 3).map (fun e => e.document),
        source_image := it.source_image, method := "llm_batch",
        suggested_classification := none }
    let all_entry : AllItem :=
      { name := it.name, price := it.price, confidence := combined.confidence,
        reasoning := combined.reasoning,
        evidence := (it.evidence.take 3).map (fun e => e.document),
        source_image := it.source_image, method := "llm_batch",
        is_vegetarian := combined.is_vegetarian, currency := "USD",
        related_ingredients := it.related_ingredients, category := none }
    if combined.is_vegetarian = none ∨ combined.confidence < st.hitl_threshold then
      { tail with
        uncertain_items :=
          { classified_item with suggested_classification := some combined.is_vegetarian }
            :: tail.uncertain_items,
        all_items := all_entry :: tail.all_items }
    else if combined.is_vegetarian = some true then
      { tail with vegetarian_items := classified_item :: tail.vegetarian_items,
                  all_items := all_entry :: tail.all_items }
    else
      { tail with non_vegetarian_items := classified_item :: tail.non_vegetarian_items,
                  all_items := all_entry :: tail.all_items }

/-- One `classify_batch_llm` call and its per-item processing. -/
def processBatchChunk (env : ClassifierEnv) (st : Settings) (chunk : List PendItem) :
    Buckets :=
  let llm_results := env.batchLLM (chunk.map (fun it => (it.name, it.evidence)))
  processPend st llm_results chunk

/-- Embedding of `ClassifierTool._execute_with_batch` (classifier.py, lines 128-294):
pass 1, then one LLM batch per `llm_batch_size` slice of the deferred items,
appended in order after the pass-1 outputs. -/
def _execute_with_batch (env : ClassifierEnv) (st : Settings) (items : List MenuItem) :
    Buckets :=
  let p1 := batchPass1 env st items
  let chunkRes := (chunkList st.llm_batch_size p1.needs).map (processBatchChunk env st)
  { vegetarian_items := p1.veg ++ (chunkRes.map (fun b => b.vegetarian_items)).flatten
    non_vegetarian_items := p1.nonveg ++ (chunkRes.map (fun b => b.non_vegetarian_items)).flatten
    uncertain_items := (chunkRes.map (fun b => b.uncertain_items)).flatten
    all_items := p1.alls ++ (chunkRes.map (fun b => b.all_items)).flatten }

/-- Embedding of `ClassifierTool.execute` (classifier.py, lines 28-61): strategy selection
by `llm_batch_enabled`. -/
def execute (env : ClassifierEnv) (st : Settings) (items : List MenuItem) : Buckets :=
  if st.llm_batch_enabled then _execute_with_batch env st items
  else _execute_sequential st.hitl_threshold env.classifySingle items

end ClassifierTool

/-- The two response shapes of the `/tools/classify-and-calculate` endpoint
(`src/src/mcp/main.py`): `needs_review confident_items uncertain_items
partial-sum all_items`, or `success vegetarian_items total-sum all_items`. -/
inductive McpResponse
  | needs_review : List ClassifiedItem → List ClassifiedItem → ℚ → List AllItem → McpResponse
  | success : List ClassifiedItem → ℚ → List AllItem → McpResponse
  deriving DecidableEq

/-- The `status` discriminator of the response. -/
def McpResponse.status : McpResponse → String
  | needs_review _ _ _ _ => "needs_review"
  | success _ _ _ => "success"

/-- The price total the response carries (`partial_sum` on the needs-review
shape, `total_sum` on the success shape). -/
def McpResponse.reportedSum : McpResponse → ℚ
  | needs_review _ _ s _ => s
  | success _ s _ => s

/-- Embedding of `classify_and_calculate` (`src/src/mcp/main.py`, lines 110-157): run the
classifier tool, then — per the truthiness of `uncertain_items` — either the
HITL response with `partial_sum = CalculatorTool.execute(veg_items)["total_sum"]`,
or the success response with the same calculator total. -/
def classify_and_calculate (env : ClassifierEnv) (st : Settings)
    (items : List MenuItem) : McpResponse :=
  let classification := ClassifierTool.execute env st items
  match classification.uncertain_items with
  | _ :: _ =>
    .needs_review classification.vegetarian_items classification.uncertain_items
      (CalculatorTool.execute (fun i => some i.price)
        classification.vegetarian_items).total_sum
      classification.all_items
  | [] =>
    .success classification.vegetarian_items
      (CalculatorTool.execute (fun i => some i.price)
        classification.vegetarian_items).total_sum
      classification.all_items

/-! ## Auxiliary definitions used by the theorems -/

/-- Keep only the last correction for each (lower-cased) name: the list
describing "as if only the last of the duplicate corrections were
present". -/
def dedupKeepLast : List CalculatorTool.Correction → List CalculatorTool.Correction
  | [] => []
  | c :: rest =>
    if rest.any (fun d => pyLower d.name == pyLower c.name)
    then dedupKeepLast rest
    else c :: dedupKeepLast rest

/-- A settings/oracle instantiation for the witnesses: sequential mode, all
tiers abstaining, so every item lands in the uncertain bucket. -/
def abstainEnv : ClassifierEnv :=
  { markers := [], positives := [], negatives := [],
    classifySingle := fun _ => ⟨none, 0, "", [], "combined"⟩,
    ragSearch := fun _ => [],
    batchLLM := fun _ _ => none }

/-- Default thresholds with the sequential strategy selected. -/
def seqSettings : Settings :=
  { confidence_threshold := 3/5, hitl_threshold := 2/5,
    llm_batch_enabled := false, llm_batch_size := 8 }

/-! ## C4/C5 scaffolding: projections and per-item pass-1 behaviour -/

def projItem (i : MenuItem) : String × ℚ × ℕ := (i.name, i.price, i.source_image)

def projCI (c : ClassifiedItem) : String × ℚ × ℕ := (c.name, c.price, c.source_image)

def projAll (a : AllItem) : String × ℚ × ℕ := (a.name, a.price, a.source_image)

def projPend (p : PendItem) : String × ℚ × ℕ := (p.name, p.price, p.source_image)

/-- Does pass 1 of the batch strategy emit an `all_items` entry for this item
(keyword-decisive, or RAG confidence above the threshold)? -/
def pass1Emits (env : ClassifierEnv) (st : Settings) (item : MenuItem) : Bool :=
  let kwr := LLMClassifier._keyword_classification env.markers env.positives env.negatives
    item.name
  if 9/10 ≤ kwr.confidence then true
  else
    let rag_result := LLMClassifier._analyze_rag_evidence (env.ragSearch item.name) item.name
    if st.confidence_threshold ≤ rag_result.confidence then true else false

/-- Does pass 1 of the batch strategy defer this item to the LLM pass
(neither keyword-decisive nor decided by a non-null above-threshold RAG
verdict)? -/
def pass1Defers (env : ClassifierEnv) (st : Settings) (item : MenuItem) : Bool :=
  let kwr := LLMClassifier._keyword_classification env.markers env.positives env.negatives
    item.name
  if 9/10 ≤ kwr.confidence then false
  else
    let rag_result := LLMClassifier._analyze_rag_evidence (env.ragSearch item.name) item.name
    if st.confidence_threshold ≤ rag_result.confidence then
      decide (rag_result.is_vegetarian = none)
    else true

/-- Oracles for the order counterexample: one marker, empty RAG results, a
batch LLM whose parsed dict is empty. -/
def cexEnv : ClassifierEnv :=
  { markers := ["(v)"], positives := [], negatives := [],
    classifySingle := fun _ => ⟨none, 0, "", [], "combined"⟩,
    ragSearch := fun _ => [], batchLLM := fun _ _ => none }

/-- Default thresholds with the batch strategy selected. -/
def cexSettings : Settings :=
  { confidence_threshold := 3/5, hitl_threshold := 2/5,
    llm_batch_enabled := true, llm_batch_size := 8 }

/-! ## Helper lemmas about the calculator -/

section CalculatorLemmas

/-- Unfolding the accumulating fold of `CalculatorTool.execute` over a list of
numeric prices. -/
theorem calculator_foldl_spec (prices : List ℚ) (t : ℚ) (c : ℕ) :
    prices.foldl
      (fun (tc : ℚ × ℕ) item =>
        match some item with
        | some price => if 0 < price then (tc.1 + price, tc.2 + 1) else tc
        | none => tc)
      (t, c)
    = (t + (prices.filter (fun q => 0 < q)).sum,
       c + (prices.filter (fun q => 0 < q)).length) := by
  induction prices generalizing t c with
  | nil => simp
  | cons p rest ih =>
    by_cases hp : 0 < p
    · simp only [List.foldl_cons, List.filter_cons, hp, if_pos hp, decide_True,
        if_true, List.sum_cons, List.length_cons, ih]
      refine Prod.ext ?_ ?_
      · simp; ring
      · simp; omega
    · simp only [List.foldl_cons, List.filter_cons, if_neg hp, hp, decide_False,
        if_false, List.sum_cons, List.length_cons, ih]
      simp

/-- The sum ignores the `0 <` filter on a list of nonnegative rationals. -/
theorem sum_filter_pos_of_nonneg (qs : List ℚ) (h : ∀ q ∈ qs, 0 ≤ q) :
    (qs.filter (fun q => 0 < q)).sum = qs.sum := by
  induction qs with
  | nil => simp
  | cons q rest ih =>
    have hq : 0 ≤ q := h q (by simp)
    have hrest : ∀ x ∈ rest, 0 ≤ x := fun x hx => h x (by simp [hx])
    by_cases hpos : 0 < q
    · simp [List.filter_cons, hpos, ih hrest]
    · have hq0 : q = 0 := le_antisymm (not_lt.mp hpos) hq
      simp [List.filter_cons, hpos, ih hrest, hq0]

end CalculatorLemmas

section RecomputeLemmas

open CalculatorTool

/-- Generic unfolding of `CalculatorTool.execute`: the total is the rounded
sum of the numeric, strictly positive prices, the count their number. -/
theorem execute_eq_filter {α : Type} (priceOf : α → Option ℚ) (l : List α) :
    CalculatorTool.execute priceOf l =
      { total_sum := pyRound 2 (((l.filterMap priceOf).filter (fun q => 0 < q)).sum),
        item_count := ((l.filterMap priceOf).filter (fun q => 0 < q)).length } := by
  suffices h : ∀ (t : ℚ) (c : ℕ),
      l.foldl
        (fun (tc : ℚ × ℕ) item =>
          match priceOf item with
          | some price => if 0 < price then (tc.1 + price, tc.2 + 1) else tc
          | none => tc)
        (t, c)
      = (t + (((l.filterMap priceOf).filter (fun q => 0 < q)).sum),
         c + (((l.filterMap priceOf).filter (fun q => 0 < q)).length)) by
    unfold CalculatorTool.execute
    rw [h 0 0]
    simp
  induction l with
  | nil => intro t c; simp
  | cons a rest ih =>
    intro t c
    simp only [List.foldl_cons, List.filterMap_cons]
    cases ha : priceOf a with
    | none => simp [ih]
    | some q =>
      by_cases hq : 0 < q
      · simp only [if_pos hq, ih, List.filter_cons, hq, decide_True, if_true,
          List.sum_cons, List.length_cons]
        refine Prod.ext ?_ ?_
        · simp; ring
        · simp; omega
      · simp [if_neg hq, ih, List.filter_cons, hq]

/-- Evaluating `sumPrices` on an all-numeric list succeeds with the plain sum. -/
theorem sumPrices_all_some (l : List (Option ℚ)) (h : ∀ p ∈ l, p ≠ none) :
    CalculatorTool.sumPrices l = some ((l.filterMap id).sum) := by
  induction l with
  | nil => simp [CalculatorTool.sumPrices]
  | cons p rest ih =>
    obtain ⟨q, hq⟩ : ∃ q, p = some q := by
      cases p with
      | none => exact absurd rfl (h none (by simp))
      | some q => exact ⟨q, rfl⟩
    have hrest : ∀ x ∈ rest, x ≠ none := fun x hx => h x (by simp [hx])
    subst hq
    simp [CalculatorTool.sumPrices, ih hrest]

/-- Every entry selected by `selectVegItems` carries a price of one of the
input items. -/
theorem selectVegItems_price_mem (lookup : String → Option Bool)
    (items : List RecompItem) :
    ∀ e ∈ CalculatorTool.selectVegItems lookup items, ∃ i ∈ items, VegEntry.price e = i.price := by
  induction items with
  | nil => simp [CalculatorTool.selectVegItems]
  | cons item rest ih =>
    intro e he
    have tailcase : e ∈ CalculatorTool.selectVegItems lookup rest →
        ∃ i ∈ item :: rest, VegEntry.price e = i.price := by
      intro hx
      obtain ⟨i, hi, hp⟩ := ih e hx
      exact ⟨i, by simp [hi], hp⟩
    have headcase : ∀ x : VegEntry, VegEntry.price x = item.price →
        e ∈ x :: CalculatorTool.selectVegItems lookup rest →
        ∃ i ∈ item :: rest, VegEntry.price e = i.price := by
      intro x hx hmem
      rcases List.mem_cons.mp hmem with h | h
      · exact ⟨item, by simp, by rw [h, hx]⟩
      · exact tailcase h
    simp only [CalculatorTool.selectVegItems] at he
    rcases hl : lookup (pyLower item.name) with _ | b <;> simp only [hl] at he
    · by_cases hv : item.is_vegetarian = true
      · rw [if_pos hv] at he
        exact headcase (VegEntry.kept item) rfl he
      · rw [if_neg hv] at he
        exact tailcase he
    · by_cases hb : b = true
      · rw [if_pos hb] at he
        exact headcase (VegEntry.corrected item.name item.price) rfl he
      · rw [if_neg hb] at he
        exact tailcase he

end RecomputeLemmas

/-! ## C2: Calculator determinism -/

/-- Claim C2 (confirmed): For every list of numeric prices,
`CalculatorTool.execute` returns `total_sum` equal to the sum of the strictly
positive prices rounded to two decimals (zero and negative prices contribute
nothing), and `item_count` equal to the number of positive prices. -/
theorem calculator_execute_spec (prices : List ℚ) :
    CalculatorTool.execute some prices =
      { total_sum := pyRound 2 (prices.filter (fun q => 0 < q)).sum,
        item_count := (prices.filter (fun q => 0 < q)).length } := by
  unfold CalculatorTool.execute
  rw [calculator_foldl_spec prices 0 0]
  simp

/-! ## C3: recompute totals versus the Calculator -/

/-- Claim C3 counterexample: A single vegetarian item priced `-5` is kept by
`recompute_with_corrections` with `total_sum = -5`, while the Calculator's
`execute` over the very `vegetarian_items` list it returned rejects the
negative price and yields `0`: `recompute` does *not* "sum and round
identically" to `execute`. -/
theorem recompute_total_mismatch_cex :
    (CalculatorTool.recompute_with_corrections [⟨"a", some (-5), true⟩] []).map
      (fun r => (r.total_sum,
        (CalculatorTool.execute CalculatorTool.VegEntry.price r.vegetarian_items).total_sum))
      = some (-5, 0)
    ∧ ((-5 : ℚ)) ≠ 0 := by
  constructor
  · simp only [CalculatorTool.recompute_with_corrections, CalculatorTool.selectVegItems,
      CalculatorTool.correctionMap, CalculatorTool.sumPrices, CalculatorTool.execute,
      CalculatorTool.VegEntry.price, pyRound, roundHalfEven, List.reverse_nil, List.find?_nil,
      List.map_cons, List.map_nil, List.foldl_cons, List.foldl_nil, Option.map_some]
    norm_num
  · norm_num

/-- Claim C3 amended: When every original item price is numeric and
nonnegative, `recompute_with_corrections` succeeds and its `total_sum` agrees
with `CalculatorTool.execute` over the `vegetarian_items` it returns (zero
prices contribute nothing to either sum).  The unrestricted claim fails:
`recompute` sums negative prices that `execute` would reject, and a
non-numeric price makes it raise rather than reject
(`recompute_total_mismatch_cex`). -/
theorem recompute_total_matches_execute_on_nonneg
    (items : List CalculatorTool.RecompItem) (corrections : List CalculatorTool.Correction)
    (h : ∀ i ∈ items, ∃ q, i.price = some q ∧ 0 ≤ q) :
    ∃ r, CalculatorTool.recompute_with_corrections items corrections = some r ∧
      r.total_sum =
        (CalculatorTool.execute CalculatorTool.VegEntry.price r.vegetarian_items).total_sum := by
  set lookup := CalculatorTool.correctionMap corrections with hlk
  set veg := CalculatorTool.selectVegItems lookup items with hveg
  have hprices : ∀ e ∈ veg, ∃ q, CalculatorTool.VegEntry.price e = some q ∧ 0 ≤ q := by
    intro e he
    obtain ⟨i, hi, hp⟩ := selectVegItems_price_mem lookup items e he
    obtain ⟨q, hq, hq0⟩ := h i hi
    exact ⟨q, by rw [hp, hq], hq0⟩
  have hsome : ∀ p ∈ veg.map CalculatorTool.VegEntry.price, p ≠ none := by
    intro p hp
    obtain ⟨e, he, hep⟩ := List.mem_map.mp hp
    obtain ⟨q, hq, _⟩ := hprices e he
    rw [← hep, hq]
    simp
  have hsum := sumPrices_all_some (veg.map CalculatorTool.VegEntry.price) hsome
  have hfm : (veg.map CalculatorTool.VegEntry.price).filterMap id =
      veg.filterMap CalculatorTool.VegEntry.price := by
    rw [List.filterMap_map]
    rfl
  have hnonneg : ∀ q ∈ veg.filterMap CalculatorTool.VegEntry.price, 0 ≤ q := by
    intro q hq
    obtain ⟨e, he, hep⟩ := List.mem_filterMap.mp hq
    obtain ⟨q', hq', hq0'⟩ := hprices e he
    rw [hq'] at hep
    cases hep
    exact hq0'
  refine ⟨{ vegetarian_items := veg,
            total_sum := pyRound 2 ((veg.filterMap CalculatorTool.VegEntry.price).sum),
            corrections_applied := corrections.length }, ?_, ?_⟩
  · simp only [CalculatorTool.recompute_with_corrections]
    rw [← hlk, ← hveg, hsum, hfm]
  · rw [execute_eq_filter]
    simp only
    rw [sum_filter_pos_of_nonneg _ hnonneg]

/-- Witness for `recompute_total_matches_execute_on_nonneg` at a concrete
input: one vegetarian item priced `2`, no corrections. -/
theorem recompute_total_matches_execute_on_nonneg_witness :
    ∃ r, CalculatorTool.recompute_with_corrections [⟨"a", some 2, true⟩] [] = some r ∧
      r.total_sum =
        (CalculatorTool.execute CalculatorTool.VegEntry.price r.vegetarian_items).total_sum :=
  recompute_total_matches_execute_on_nonneg [⟨"a", some 2, true⟩] []
    (by intro i hi; refine ⟨2, ?_, by norm_num⟩; simp at hi; rw [hi])

/-! ## C10: duplicate corrections, last one wins -/

/-- The last correction carrying a given key is unchanged by
`dedupKeepLast`. -/
theorem findLast_dedupKeepLast (cs : List CalculatorTool.Correction) (key : String) :
    cs.reverse.find? (fun c => pyLower c.name == key) =
      (dedupKeepLast cs).reverse.find? (fun c => pyLower c.name == key) := by
  induction cs with
  | nil => rfl
  | cons c rest ih =>
    by_cases h : rest.any (fun d => pyLower d.name == pyLower c.name)
    · rw [show dedupKeepLast (c :: rest) = dedupKeepLast rest from by
        simp [dedupKeepLast, h]]
      rw [List.reverse_cons, List.find?_append, ← ih]
      cases hf : rest.reverse.find? (fun c => pyLower c.name == key) with
      | some x => simp
      | none =>
        simp only [Option.none_or]
        have hnc : ¬ (pyLower c.name == key) = true := by
          intro hc
          obtain ⟨d, hd, hdc⟩ := List.any_eq_true.mp h
          have : (fun c => pyLower c.name == key) d = true := by
            simp only [beq_iff_eq] at hdc hc ⊢
            rw [hdc, hc]
          have := List.find?_eq_none.mp hf d (List.mem_reverse.mpr hd)
          exact this (by exact_mod_cast ‹(fun c => pyLower c.name == key) d = true›)
        simp [hnc]
    · rw [show dedupKeepLast (c :: rest) = c :: dedupKeepLast rest from by
        simp [dedupKeepLast, h]]
      rw [List.reverse_cons, List.reverse_cons, List.find?_append, List.find?_append, ih]

/-- The selection `selectVegItems` only looks at the lookup function pointwise. -/
theorem selectVegItems_congr (f g : String → Option Bool)
    (hfg : ∀ k, f k = g k) (items : List CalculatorTool.RecompItem) :
    CalculatorTool.selectVegItems f items = CalculatorTool.selectVegItems g items := by
  induction items with
  | nil => rfl
  | cons item rest ih =>
    simp only [CalculatorTool.selectVegItems, hfg, ih]

/-- Claim C10 (confirmed): Duplicate corrections resolve to the last one: the
correction map is a dict built left to right, so
`recompute_with_corrections items corrections` returns the same
`vegetarian_items` and `total_sum` as with only the last correction kept per
case-insensitive name, while `corrections_applied` still counts every
submitted correction. -/
theorem recompute_duplicate_corrections_last_wins
    (items : List CalculatorTool.RecompItem) (corrections : List CalculatorTool.Correction) :
    (CalculatorTool.recompute_with_corrections items corrections).map
        (fun r => (r.vegetarian_items, r.total_sum))
      = (CalculatorTool.recompute_with_corrections items (dedupKeepLast corrections)).map
        (fun r => (r.vegetarian_items, r.total_sum))
    ∧ (CalculatorTool.recompute_with_corrections items corrections).map
        (fun r => r.corrections_applied)
      = (CalculatorTool.recompute_with_corrections items corrections).map
        (fun _ => corrections.length) := by
  have hmap : ∀ k, CalculatorTool.correctionMap corrections k =
      CalculatorTool.correctionMap (dedupKeepLast corrections) k := by
    intro k
    unfold CalculatorTool.correctionMap
    rw [findLast_dedupKeepLast]
  have hveg : CalculatorTool.selectVegItems (CalculatorTool.correctionMap corrections) items =
      CalculatorTool.selectVegItems (CalculatorTool.correctionMap (dedupKeepLast corrections))
        items :=
    selectVegItems_congr _ _ hmap items
  constructor
  · simp only [CalculatorTool.recompute_with_corrections]
    rw [← hveg]
    rcases hs : CalculatorTool.sumPrices
        ((CalculatorTool.selectVegItems (CalculatorTool.correctionMap corrections) items).map
          CalculatorTool.VegEntry.price) with _ | s <;> simp [hs]
  · simp only [CalculatorTool.recompute_with_corrections]
    rcases hs : CalculatorTool.sumPrices
        ((CalculatorTool.selectVegItems (CalculatorTool.correctionMap corrections) items).map
          CalculatorTool.VegEntry.price) with _ | s <;> simp [hs]

/-! ## C7: keyword marker precedence -/

/-- Claim C7 (confirmed): Whenever the lower-cased dish name contains some
vegetarian marker as a substring, `_keyword_classification` answers
vegetarian with confidence `0.95`, whatever positive or negative keywords the
name may also contain: the marker loop runs first and returns immediately. -/
theorem keyword_marker_precedence (markers positives negatives : List String)
    (name : String)
    (h : ∃ m ∈ markers, containsSeq m.toList (pyLower name).toList = true) :
    (LLMClassifier._keyword_classification markers positives negatives name).is_vegetarian
        = some true
    ∧ (LLMClassifier._keyword_classification markers positives negatives name).confidence
        = 19/20 := by
  have hsome : (markers.find? (fun m => containsSeq m.toList (pyLower name).toList)).isSome := by
    rw [List.find?_isSome]
    exact h
  obtain ⟨m, hm⟩ := Option.isSome_iff_exists.mp hsome
  simp only [LLMClassifier._keyword_classification, hm]
  simp

/-- Witness for `keyword_marker_precedence`: `"Veggie Chicken Tenders (V)"`
contains the marker `"(v)"` even though `"chicken"` is a negative keyword. -/
theorem keyword_marker_precedence_witness :
    (LLMClassifier._keyword_classification ["(v)"] ["veggie"] ["chicken"]
      "Veggie Chicken Tenders (V)").is_vegetarian = some true
    ∧ (LLMClassifier._keyword_classification ["(v)"] ["veggie"] ["chicken"]
      "Veggie Chicken Tenders (V)").confidence = 19/20 :=
  keyword_marker_precedence ["(v)"] ["veggie"] ["chicken"] "Veggie Chicken Tenders (V)"
    ⟨"(v)", by decide, by decide⟩

/-! ## C8: RAG hit relevance -/

/-- Claim C8 counterexample: A raw query row at distance `3/2` (cosine-style
distances range over `[0,2]`) is returned by `VectorStore.search` with
`relevance_score = -1/2`: the transform is `1 - distance` with **no**
clamping to `[0,1]`, so a returned hit can carry negative relevance. -/
theorem search_relevance_negative_cex :
    (VectorStore.search [⟨"ing_x", "x: stuff", "x", some true, "ingredient",
        some "misc", 3/2⟩]).map (fun h => h.relevance_score) = [-(1/2)]
    ∧ ¬ (0 ≤ (-(1/2) : ℚ)) := by
  constructor
  · simp only [VectorStore.search, List.map_cons, List.map_nil]
    norm_num
  · norm_num

/-- Claim C8 amended: Each hit returned by `VectorStore.search` carries
`relevance = 1 - distance` *unclamped* (negative whenever the underlying
distance exceeds 1); the result has one hit per raw query row, so the length
bound `≤ k` and the ascending-distance order are exactly those of the
underlying collection query. -/
theorem search_relevance_unclamped_spec (raw : List RawHit) (k : ℕ)
    (hlen : raw.length ≤ k)
    (hsorted : raw.Pairwise (fun a b => a.distance ≤ b.distance)) :
    (VectorStore.search raw).length ≤ k
    ∧ (VectorStore.search raw).Pairwise (fun a b => a.distance ≤ b.distance)
    ∧ ∀ h ∈ VectorStore.search raw, h.relevance_score = 1 - h.distance := by
  refine ⟨by simpa [VectorStore.search] using hlen, ?_, ?_⟩
  · exact List.Pairwise.map _ (fun a b hab => hab) hsorted
  · intro h hh
    obtain ⟨r, _, rfl⟩ := List.mem_map.mp hh
    rfl

/-- Witness for `search_relevance_unclamped_spec` on a one-row query result. -/
theorem search_relevance_unclamped_spec_witness :
    (VectorStore.search [⟨"ing_tofu", "Tofu: soy", "Tofu", some true, "ingredient",
        some "protein", 1/4⟩]).length ≤ 1
    ∧ (VectorStore.search [⟨"ing_tofu", "Tofu: soy", "Tofu", some true, "ingredient",
        some "protein", 1/4⟩]).Pairwise (fun a b => a.distance ≤ b.distance)
    ∧ ∀ h ∈ VectorStore.search [⟨"ing_tofu", "Tofu: soy", "Tofu", some true, "ingredient",
        some "protein", 1/4⟩], h.relevance_score = 1 - h.distance :=
  search_relevance_unclamped_spec _ 1 (by simp) (by simp)

/-! ## C9: combined confidence can exceed 1 -/

/-- Rounding half to even never drops below the floor. -/
theorem roundHalfEven_ge_floor (q : ℚ) : ⌊q⌋ ≤ roundHalfEven q := by
  simp only [roundHalfEven]
  split_ifs <;> omega

/-- A quantity at least `2` still exceeds `1` after three-decimal rounding. -/
theorem pyRound3_gt_one_of_ge_two (q : ℚ) (h : 2 ≤ q) : 1 < pyRound 3 q := by
  unfold pyRound
  have h1 : (2000 : ℤ) ≤ ⌊q * 10 ^ 3⌋ := by
    have h0 : (2000 : ℚ) ≤ q * 10 ^ 3 := by nlinarith
    exact Int.le_floor.mpr (by exact_mod_cast h0)
  have h2 := roundHalfEven_ge_floor (q * 10 ^ 3)
  have h3 : (2000 : ℚ) ≤ (roundHalfEven (q * 10 ^ 3) : ℚ) := by exact_mod_cast le_trans h1 h2
  have h4 : ((10:ℚ) ^ (3:ℕ)) = 1000 := by norm_num
  rw [h4] at h3 ⊢
  rw [lt_div_iff₀ (by norm_num : (0:ℚ) < 1000)]
  linarith

/-- Claim C9 (confirmed): Tier results reachable through the engine's own
parsing code drive the combined confidence above `1`: `_parse_llm_fields`
accepts the LLM-reported confidence unconstrained (here a negative `-3/10`
with a non-vegetarian verdict), which makes the weighted vote
`p = 17/11 > 1`, and `_combine_results` publishes
`|p - 1/2| * 2 ≈ 2.091` without clamping to `[0,1]`. -/
theorem combined_confidence_exceeds_one :
    1 < (LLMClassifier._combine_results
      (LLMClassifier._keyword_classification [] [] [] "Mystery Stew")
      (LLMClassifier._analyze_rag_evidence
        [⟨"ing_tofu", "Tofu: soy", "Tofu", some true, "ingredient", some "protein", 2/5, 3/5⟩]
        "Mystery Stew")
      (LLMClassifier._parse_llm_fields (some false) (-(3/10)) "contains meat")).confidence := by
  simp only [LLMClassifier._combine_results, LLMClassifier._keyword_classification,
    LLMClassifier._analyze_rag_evidence, LLMClassifier._parse_llm_fields,
    LLMClassifier.ragScores, List.find?_nil, List.filter_cons, List.filter_nil]
  norm_num
  split
  · next h => simp at h
  · next h =>
      have habs : |(23:ℚ)/22| = 23/22 := abs_of_pos (by norm_num)
      show 1 < pyRound 3 (|(23:ℚ)/22| * 2)
      apply pyRound3_gt_one_of_ge_two
      rw [habs]
      norm_num

/-! ## C6: combination monotonicity in the LLM tier -/

/-- Core algebra of the weighted vote: with the other tiers aggregated into a
numerator part `A` and weight mass `B` (`0 ≤ A ≤ B`), raising the LLM
confidence from `c₁` to `c₂` cannot move the verdict to the sign opposite the
LLM tier's sign `s`; the degenerate zero-mass branch returns the head tier
`v` unchanged on both sides. -/
theorem no_flip_core (x₁ x₂ : Option Bool) (W₁ W₂ N₁ N₂ A B w c₁ c₂ : ℚ) (s : Bool)
    (v : Option Bool)
    (hx₁ : x₁ = if W₁ = 0 then v else some (decide (1/2 < N₁ / W₁)))
    (hx₂ : x₂ = if W₂ = 0 then v else some (decide (1/2 < N₂ / W₂)))
    (hW₁ : W₁ = B + c₁ * w) (hW₂ : W₂ = B + c₂ * w)
    (hN₁ : N₁ = A + (if s then (1:ℚ) else 0) * (c₁ * w))
    (hN₂ : N₂ = A + (if s then (1:ℚ) else 0) * (c₂ * w))
    (hA0 : 0 ≤ A) (hAB : A ≤ B) (hw : 0 < w) (hc0 : 0 ≤ c₁) (hc12 : c₁ ≤ c₂)
    (hflip : x₁ ≠ some (!s)) : x₂ ≠ some (!s) := by
  subst hx₁ hx₂ hW₁ hW₂ hN₁ hN₂
  have hB0 : 0 ≤ B := le_trans hA0 hAB
  have hc20 : 0 ≤ c₂ := le_trans hc0 hc12
  by_cases hW2 : B + c₂ * w = 0
  · have hB : B = 0 := by nlinarith
    have hc2 : c₂ = 0 := by nlinarith
    have hc1 : c₁ = 0 := le_antisymm (by linarith) hc0
    have hW1 : B + c₁ * w = 0 := by rw [hB, hc1]; ring
    rw [if_pos hW2]
    rw [if_pos hW1] at hflip
    exact hflip
  · have hW2pos : 0 < B + c₂ * w := lt_of_le_of_ne (by nlinarith) (Ne.symm hW2)
    rw [if_neg hW2]
    by_cases hW1 : B + c₁ * w = 0
    · have hB : B = 0 := by nlinarith
      have hA : A = 0 := le_antisymm (by rw [← hB]; exact hAB) hA0
      have hcw : 0 < c₂ * w := by nlinarith
      rcases s with _ | _
      · simp only [Bool.not_false, ne_eq, Option.some.injEq, if_false]
        intro hdec
        have hP : (1:ℚ)/2 < (A + 0 * (c₂ * w)) / (B + c₂ * w) := of_decide_eq_true hdec
        rw [hA, hB] at hP
        rw [lt_div_iff₀ (by nlinarith : (0:ℚ) < 0 + c₂ * w)] at hP
        nlinarith
      · simp only [Bool.not_true, ne_eq, Option.some.injEq, if_true]
        intro hdec
        have hP : decide ((1:ℚ)/2 < (A + 1 * (c₂ * w)) / (B + c₂ * w)) = false := hdec
        have hP' : ¬ ((1:ℚ)/2 < (A + 1 * (c₂ * w)) / (B + c₂ * w)) := of_decide_eq_false hP
        apply hP'
        rw [hA, hB]
        rw [lt_div_iff₀ (by nlinarith : (0:ℚ) < 0 + c₂ * w)]
        nlinarith
    · have hW1pos : 0 < B + c₁ * w := lt_of_le_of_ne (by nlinarith) (Ne.symm hW1)
      rw [if_neg hW1] at hflip
      have hstep : c₁ * w ≤ c₂ * w := by nlinarith
      rcases s with _ | _
      · simp only [Bool.not_false, ne_eq, Option.some.injEq] at hflip ⊢
        intro hdec
        apply hflip
        have hP : (1:ℚ)/2 < (A + (if false then (1:ℚ) else 0) * (c₂ * w)) / (B + c₂ * w) :=
          of_decide_eq_true hdec
        rw [if_neg (by simp)] at hP
        rw [lt_div_iff₀ hW2pos] at hP
        rw [show (if false then (1:ℚ) else 0) = 0 from by simp]
        apply decide_eq_true
        rw [lt_div_iff₀ hW1pos]
        nlinarith
      · simp only [Bool.not_true, ne_eq, Option.some.injEq] at hflip ⊢
        intro hdec
        apply hflip
        have hP : decide ((1:ℚ)/2 < (A + (if true then (1:ℚ) else 0) * (c₂ * w)) / (B + c₂ * w))
            = false := hdec
        have hP' := of_decide_eq_false hP
        rw [if_pos rfl] at hP'
        rw [lt_div_iff₀ hW2pos] at hP'
        apply decide_eq_false
        intro hQ
        rw [if_true] at hQ
        rw [lt_div_iff₀ hW1pos] at hQ
        apply hP'
        nlinarith

/-- Claim C6 (confirmed): With the keyword and RAG tier results held fixed
(any nullity, confidences in `[0,1]`) and the LLM tier keeping its
`is_vegetarian` sign `s`, increasing the LLM confidence cannot change the
combined verdict of `_combine_results` to the sign opposite `s`. -/
theorem combine_monotone_llm_confidence (k r : TierResult) (s : Bool) (c₁ c₂ : ℚ)
    (rs₁ rs₂ m₁ m₂ : String)
    (hk0 : 0 ≤ k.confidence) (hk1 : k.confidence ≤ 1)
    (hr0 : 0 ≤ r.confidence) (hr1 : r.confidence ≤ 1)
    (hc0 : 0 ≤ c₁) (hc12 : c₁ ≤ c₂) (_hc1 : c₂ ≤ 1)
    (hflip : (LLMClassifier._combine_results k r ⟨some s, c₁, rs₁, m₁⟩).is_vegetarian
      ≠ some (!s)) :
    (LLMClassifier._combine_results k r ⟨some s, c₂, rs₂, m₂⟩).is_vegetarian ≠ some (!s) := by
  obtain ⟨kv, kc, krs, km⟩ := k
  obtain ⟨rv, rc, rrs, rm⟩ := r
  replace hk0 : 0 ≤ kc := hk0
  replace hk1 : kc ≤ 1 := hk1
  replace hr0 : 0 ≤ rc := hr0
  replace hr1 : rc ≤ 1 := hr1
  have hind : ∀ b : Bool, 0 ≤ (if b = true then (1:ℚ) else 0)
      ∧ (if b = true then (1:ℚ) else 0) ≤ 1 := by
    intro b
    constructor <;> split_ifs <;> norm_num
  rcases kv with _ | kb <;> rcases rv with _ | rb
  · -- both tiers null: only the LLM tier remains
    have hred : ∀ (c : ℚ) (rs m : String),
        (LLMClassifier._combine_results ⟨none, kc, krs, km⟩ ⟨none, rc, rrs, rm⟩
          ⟨some s, c, rs, m⟩).is_vegetarian
        = if c * (3/10) + 0 = 0 then some s
          else some (decide (1/2 < ((if s = true then (1:ℚ) else 0) * c * (3/10) + 0)
            / (c * (3/10) + 0))) := by
      intro c rs m
      simp only [LLMClassifier._combine_results, List.filter_cons, List.filter_nil,
        Option.isSome_some, Option.isSome_none, decide_True, decide_False, if_true, if_false,
        List.cons_ne_nil, dite_false, List.map_cons, List.map_nil, List.sum_cons,
        List.sum_nil, List.head_cons, Option.some.injEq, Bool.false_eq_true]
      rw [apply_ite TierResult.is_vegetarian]
    rw [hred c₁ rs₁ m₁] at hflip
    rw [hred c₂ rs₂ m₂]
    exact no_flip_core _ _ _ _ _ _ 0 0 (3/10) c₁ c₂ s (some s)
      rfl rfl (by ring) (by ring) (by ring) (by ring)
      le_rfl le_rfl (by norm_num) hc0 hc12 hflip
  · -- only RAG and LLM
    have hred : ∀ (c : ℚ) (rs m : String),
        (LLMClassifier._combine_results ⟨none, kc, krs, km⟩ ⟨some rb, rc, rrs, rm⟩
          ⟨some s, c, rs, m⟩).is_vegetarian
        = if rc * (3/10) + (c * (3/10) + 0) = 0 then some rb
          else some (decide (1/2 < ((if rb = true then (1:ℚ) else 0) * rc * (3/10)
            + ((if s = true then (1:ℚ) else 0) * c * (3/10) + 0))
            / (rc * (3/10) + (c * (3/10) + 0)))) := by
      intro c rs m
      simp only [LLMClassifier._combine_results, List.filter_cons, List.filter_nil,
        Option.isSome_some, Option.isSome_none, decide_True, decide_False, if_true, if_false,
        List.cons_ne_nil, dite_false, List.map_cons, List.map_nil, List.sum_cons,
        List.sum_nil, List.head_cons, Option.some.injEq, Bool.false_eq_true]
      rw [apply_ite TierResult.is_vegetarian]
    rw [hred c₁ rs₁ m₁] at hflip
    rw [hred c₂ rs₂ m₂]
    exact no_flip_core _ _ _ _ _ _
      ((if rb = true then (1:ℚ) else 0) * rc * (3/10)) (rc * (3/10)) (3/10) c₁ c₂ s (some rb)
      rfl rfl (by ring) (by ring) (by ring) (by ring)
      (by nlinarith [(hind rb).1, (hind rb).2]) (by nlinarith [(hind rb).1, (hind rb).2])
      (by norm_num) hc0 hc12 hflip
  · -- only keyword and LLM
    have hred : ∀ (c : ℚ) (rs m : String),
        (LLMClassifier._combine_results ⟨some kb, kc, krs, km⟩ ⟨none, rc, rrs, rm⟩
          ⟨some s, c, rs, m⟩).is_vegetarian
        = if kc * (2/5) + (c * (3/10) + 0) = 0 then some kb
          else some (decide (1/2 < ((if kb = true then (1:ℚ) else 0) * kc * (2/5)
            + ((if s = true then (1:ℚ) else 0) * c * (3/10) + 0))
            / (kc * (2/5) + (c * (3/10) + 0)))) := by
      intro c rs m
      simp only [LLMClassifier._combine_results, List.filter_cons, List.filter_nil,
        Option.isSome_some, Option.isSome_none, decide_True, decide_False, if_true, if_false,
        List.cons_ne_nil, dite_false, List.map_cons, List.map_nil, List.sum_cons,
        List.sum_nil, List.head_cons, Option.some.injEq, Bool.false_eq_true]
      rw [apply_ite TierResult.is_vegetarian]
    rw [hred c₁ rs₁ m₁] at hflip
    rw [hred c₂ rs₂ m₂]
    exact no_flip_core _ _ _ _ _ _
      ((if kb = true then (1:ℚ) else 0) * kc * (2/5)) (kc * (2/5)) (3/10) c₁ c₂ s (some kb)
      rfl rfl (by ring) (by ring) (by ring) (by ring)
      (by nlinarith [(hind kb).1, (hind kb).2]) (by nlinarith [(hind kb).1, (hind kb).2])
      (by norm_num) hc0 hc12 hflip
  · -- all three tiers valid
    have hred : ∀ (c : ℚ) (rs m : String),
        (LLMClassifier._combine_results ⟨some kb, kc, krs, km⟩ ⟨some rb, rc, rrs, rm⟩
          ⟨some s, c, rs, m⟩).is_vegetarian
        = if kc * (2/5) + (rc * (3/10) + (c * (3/10) + 0)) = 0 then some kb
          else some (decide (1/2 < ((if kb = true then (1:ℚ) else 0) * kc * (2/5)
            + ((if rb = true then (1:ℚ) else 0) * rc * (3/10)
              + ((if s = true then (1:ℚ) else 0) * c * (3/10) + 0)))
            / (kc * (2/5) + (rc * (3/10) + (c * (3/10) + 0))))) := by
      intro c rs m
      simp only [LLMClassifier._combine_results, List.filter_cons, List.filter_nil,
        Option.isSome_some, Option.isSome_none, decide_True, decide_False, if_true, if_false,
        List.cons_ne_nil, dite_false, List.map_cons, List.map_nil, List.sum_cons,
        List.sum_nil, List.head_cons, Option.some.injEq, Bool.false_eq_true]
      rw [apply_ite TierResult.is_vegetarian]
    rw [hred c₁ rs₁ m₁] at hflip
    rw [hred c₂ rs₂ m₂]
    exact no_flip_core _ _ _ _ _ _
      ((if kb = true then (1:ℚ) else 0) * kc * (2/5)
        + (if rb = true then (1:ℚ) else 0) * rc * (3/10))
      (kc * (2/5) + rc * (3/10)) (3/10) c₁ c₂ s (some kb)
      rfl rfl (by ring) (by ring) (by ring) (by ring)
      (by nlinarith [(hind kb).1, (hind kb).2, (hind rb).1, (hind rb).2])
      (by nlinarith [(hind kb).1, (hind kb).2, (hind rb).1, (hind rb).2])
      (by norm_num) hc0 hc12 hflip

/-- Witness for `combine_monotone_llm_confidence`: null keyword/RAG tiers, a
vegetarian LLM tier raised from confidence `1/2` to `1`. -/
theorem combine_monotone_llm_confidence_witness :
    (LLMClassifier._combine_results ⟨none, 0, "", ""⟩ ⟨none, 0, "", ""⟩
      ⟨some true, 1, "llm-hi", "llm"⟩).is_vegetarian ≠ some (!true) :=
  combine_monotone_llm_confidence ⟨none, 0, "", ""⟩ ⟨none, 0, "", ""⟩ true (1/2) 1
    "llm-lo" "llm-hi" "llm" "llm" (le_refl _) (by norm_num) (le_refl _) (by norm_num)
    (by norm_num) (by norm_num) (by norm_num)
    (by
      simp only [LLMClassifier._combine_results, List.filter_cons, List.filter_nil,
        Option.isSome_some, Option.isSome_none, decide_True, decide_False, if_true, if_false,
        List.cons_ne_nil, dite_false, List.map_cons, List.map_nil, List.sum_cons,
        List.sum_nil, List.head_cons, Option.some.injEq, Bool.false_eq_true]
      rw [apply_ite TierResult.is_vegetarian]
      norm_num)

/-! ## C1: HITL consistency of classify-and-calculate -/

/-- Claim C1 (confirmed): For every request (any strategy, any oracle
behaviour): when the classifier tool's uncertain bucket is non-empty the
endpoint answers `needs_review` and its carried sum is exactly
`CalculatorTool.execute` over the confident-vegetarian bucket; when the
bucket is empty it answers `success` with the same calculator total. -/
theorem classify_and_calculate_hitl_consistency (env : ClassifierEnv) (st : Settings)
    (items : List MenuItem) :
    ((ClassifierTool.execute env st items).uncertain_items ≠ [] →
      (classify_and_calculate env st items).status = "needs_review"
      ∧ (classify_and_calculate env st items).reportedSum =
        (CalculatorTool.execute (fun i => some i.price)
          (ClassifierTool.execute env st items).vegetarian_items).total_sum)
    ∧ ((ClassifierTool.execute env st items).uncertain_items = [] →
      (classify_and_calculate env st items).status = "success"
      ∧ (classify_and_calculate env st items).reportedSum =
        (CalculatorTool.execute (fun i => some i.price)
          (ClassifierTool.execute env st items).vegetarian_items).total_sum) := by
  rcases h : (ClassifierTool.execute env st items).uncertain_items with _ | ⟨u, us⟩ <;>
      simp only [classify_and_calculate, h] <;>
    simp [McpResponse.status, McpResponse.reportedSum]

/-- Witness for `classify_and_calculate_hitl_consistency`: one undecidable
item makes the endpoint answer `needs_review`. -/
theorem classify_and_calculate_hitl_consistency_witness :
    (classify_and_calculate abstainEnv seqSettings [⟨"Chef Mystery Bowl", 10, 1⟩]).status
      = "needs_review" :=
  ((classify_and_calculate_hitl_consistency abstainEnv seqSettings
      [⟨"Chef Mystery Bowl", 10, 1⟩]).1
    (by
      simp [ClassifierTool.execute, ClassifierTool._execute_sequential, seqSettings,
        abstainEnv])).1

theorem seq_all_items_order (hitl : ℚ) (f : String → ClassifyOut) (items : List MenuItem) :
    ((ClassifierTool._execute_sequential hitl f items).all_items).map projAll
      = items.map projItem := by
  induction items with
  | nil => rfl
  | cons item rest ih =>
    simp only [ClassifierTool._execute_sequential]
    split_ifs <;> simp only [List.map_cons, ih] <;> rfl

theorem seq_buckets_multiset (hitl : ℚ) (f : String → ClassifyOut) (items : List MenuItem) :
    ((((ClassifierTool._execute_sequential hitl f items).vegetarian_items).map projCI
        : Multiset (String × ℚ × ℕ)))
      + (((ClassifierTool._execute_sequential hitl f items).non_vegetarian_items).map projCI)
      + (((ClassifierTool._execute_sequential hitl f items).uncertain_items).map projCI)
      = (items.map projItem : List _) := by
  induction items with
  | nil => rfl
  | cons item rest ih =>
    simp only [ClassifierTool._execute_sequential]
    split_ifs
    · show ((((ClassifierTool._execute_sequential hitl f rest).vegetarian_items).map projCI
          : Multiset (String × ℚ × ℕ)))
        + (((ClassifierTool._execute_sequential hitl f rest).non_vegetarian_items).map projCI)
        + ↑(projItem item ::
            ((ClassifierTool._execute_sequential hitl f rest).uncertain_items).map projCI)
        = ↑(projItem item :: rest.map projItem)
      rw [← Multiset.cons_coe, ← Multiset.cons_coe]
      rw [Multiset.add_cons]
      rw [ih]
    · show ↑(projItem item ::
            ((ClassifierTool._execute_sequential hitl f rest).vegetarian_items).map projCI)
        + ((((ClassifierTool._execute_sequential hitl f rest).non_vegetarian_items).map projCI
          : Multiset (String × ℚ × ℕ)))
        + (((ClassifierTool._execute_sequential hitl f rest).uncertain_items).map projCI)
        = ↑(projItem item :: rest.map projItem)
      rw [← Multiset.cons_coe, ← Multiset.cons_coe]
      rw [Multiset.cons_add, Multiset.cons_add]
      rw [ih]
    · show ((((ClassifierTool._execute_sequential hitl f rest).vegetarian_items).map projCI
          : Multiset (String × ℚ × ℕ)))
        + ↑(projItem item ::
            ((ClassifierTool._execute_sequential hitl f rest).non_vegetarian_items).map projCI)
        + (((ClassifierTool._execute_sequential hitl f rest).uncertain_items).map projCI)
        = ↑(projItem item :: rest.map projItem)
      rw [← Multiset.cons_coe, ← Multiset.cons_coe]
      rw [Multiset.add_cons, Multiset.cons_add]
      rw [ih]

theorem seq_buckets_length (hitl : ℚ) (f : String → ClassifyOut) (items : List MenuItem) :
    (ClassifierTool._execute_sequential hitl f items).vegetarian_items.length
      + (ClassifierTool._execute_sequential hitl f items).non_vegetarian_items.length
      + (ClassifierTool._execute_sequential hitl f items).uncertain_items.length
      = items.length := by
  have h := congrArg Multiset.card (seq_buckets_multiset hitl f items)
  simp at h
  omega

theorem batchPass1_alls (env : ClassifierEnv) (st : Settings) (items : List MenuItem) :
    (ClassifierTool.batchPass1 env st items).alls.map projAll
      = (items.filter (pass1Emits env st)).map projItem := by
  induction items with
  | nil => rfl
  | cons item rest ih =>
    simp only [ClassifierTool.batchPass1]
    split_ifs <;> simp_all [List.filter_cons, pass1Emits, projAll, projItem]

theorem batchPass1_needs (env : ClassifierEnv) (st : Settings) (items : List MenuItem) :
    (ClassifierTool.batchPass1 env st items).needs.map projPend
      = (items.filter (pass1Defers env st)).map projItem := by
  induction items with
  | nil => rfl
  | cons item rest ih =>
    simp only [ClassifierTool.batchPass1]
    rcases hv : (LLMClassifier._analyze_rag_evidence (env.ragSearch item.name)
        item.name).is_vegetarian with _ | b
    · split_ifs <;> simp_all [List.filter_cons, pass1Defers, projPend, projItem]
    · split_ifs <;> simp_all [List.filter_cons, pass1Defers, projPend, projItem]

theorem batchPass1_multiset (env : ClassifierEnv) (st : Settings) (items : List MenuItem) :
    (((ClassifierTool.batchPass1 env st items).veg.map projCI : Multiset (String × ℚ × ℕ)))
      + ((ClassifierTool.batchPass1 env st items).nonveg.map projCI)
      + ((ClassifierTool.batchPass1 env st items).needs.map projPend)
      = (items.map projItem : List _) := by
  induction items with
  | nil => rfl
  | cons item rest ih =>
    simp only [ClassifierTool.batchPass1]
    split_ifs <;>
      simp_all [List.map_cons, ← Multiset.cons_coe, Multiset.cons_add, Multiset.add_cons,
        projCI, projPend, projItem]

theorem processPend_alls (st : Settings) (res : String → Option TierResult)
    (chunk : List PendItem) :
    (ClassifierTool.processPend st res chunk).all_items.map projAll = chunk.map projPend := by
  induction chunk with
  | nil => rfl
  | cons it rest ih =>
    simp only [ClassifierTool.processPend]
    split_ifs <;> simp_all [List.map_cons, projAll, projPend]

theorem processPend_multiset (st : Settings) (res : String → Option TierResult)
    (chunk : List PendItem) :
    (((ClassifierTool.processPend st res chunk).vegetarian_items.map projCI
        : Multiset (String × ℚ × ℕ)))
      + ((ClassifierTool.processPend st res chunk).non_vegetarian_items.map projCI)
      + ((ClassifierTool.processPend st res chunk).uncertain_items.map projCI)
      = (chunk.map projPend : List _) := by
  induction chunk with
  | nil => rfl
  | cons it rest ih =>
    simp only [ClassifierTool.processPend]
    split_ifs <;>
      simp_all [List.map_cons, ← Multiset.cons_coe, Multiset.cons_add, Multiset.add_cons,
        projCI, projPend]

theorem chunkList_flatten {α : Type} (m : ℕ) :
    ∀ l : List α, (ClassifierTool.chunkList (m + 1) l).flatten = l
  | [] => by simp [ClassifierTool.chunkList]
  | x :: xs => by
    simp only [ClassifierTool.chunkList, List.flatten_cons]
    rw [chunkList_flatten m (xs.drop m)]
    simp [List.cons_append, List.take_append_drop]
  termination_by l => l.length
  decreasing_by simp [List.length_drop]; omega

theorem batch_all_items_decomp (env : ClassifierEnv) (st : Settings) (items : List MenuItem)
    (hb : 0 < st.llm_batch_size) :
    (ClassifierTool._execute_with_batch env st items).all_items.map projAll
      = (items.filter (pass1Emits env st)).map projItem
        ++ (items.filter (pass1Defers env st)).map projItem := by
  obtain ⟨m, hm⟩ : ∃ m, st.llm_batch_size = m + 1 := ⟨st.llm_batch_size - 1, by omega⟩
  simp only [ClassifierTool._execute_with_batch, List.map_append]
  rw [batchPass1_alls]
  congr 1
  rw [List.map_flatten, List.map_map, List.map_map]
  have hcomp : ((fun b => List.map projAll b.all_items) ∘ ClassifierTool.processBatchChunk env st)
      = fun ch => ch.map projPend := by
    funext ch
    exact processPend_alls st _ ch
  rw [show (List.map projAll ∘ fun b => b.all_items) ∘ ClassifierTool.processBatchChunk env st
      = fun ch => ch.map projPend from hcomp]
  rw [← List.map_flatten, hm, chunkList_flatten, batchPass1_needs]

theorem processChunks_multiset (env : ClassifierEnv) (st : Settings)
    (chunks : List (List PendItem)) :
    (((((chunks.map (ClassifierTool.processBatchChunk env st)).map
          (fun b => b.vegetarian_items)).flatten).map projCI : Multiset (String × ℚ × ℕ)))
      + ((((chunks.map (ClassifierTool.processBatchChunk env st)).map
          (fun b => b.non_vegetarian_items)).flatten).map projCI)
      + ((((chunks.map (ClassifierTool.processBatchChunk env st)).map
          (fun b => b.uncertain_items)).flatten).map projCI)
      = ((chunks.flatten).map projPend : List _) := by
  induction chunks with
  | nil => rfl
  | cons ch chs ih =>
    simp only [List.map_cons, List.flatten_cons, List.map_append, ← Multiset.coe_add]
    have hch := processPend_multiset st
      (env.batchLLM (ch.map (fun it => (it.name, it.evidence)))) ch
    simp only [ClassifierTool.processBatchChunk]
    rw [← hch, ← ih]
    abel

theorem batch_buckets_multiset (env : ClassifierEnv) (st : Settings) (items : List MenuItem)
    (hb : 0 < st.llm_batch_size) :
    (((ClassifierTool._execute_with_batch env st items).vegetarian_items.map projCI
        : Multiset (String × ℚ × ℕ)))
      + ((ClassifierTool._execute_with_batch env st items).non_vegetarian_items.map projCI)
      + ((ClassifierTool._execute_with_batch env st items).uncertain_items.map projCI)
      = (items.map projItem : List _) := by
  obtain ⟨m, hm⟩ : ∃ m, st.llm_batch_size = m + 1 := ⟨st.llm_batch_size - 1, by omega⟩
  simp only [ClassifierTool._execute_with_batch, hm, List.map_append, ← Multiset.coe_add]
  have h1 := batchPass1_multiset env st items
  have h2 := processChunks_multiset env st
    (ClassifierTool.chunkList (m + 1) (ClassifierTool.batchPass1 env st items).needs)
  rw [chunkList_flatten] at h2
  rw [← h1, ← h2]
  abel

/-- Claim C5 (confirmed): under either strategy (selected by
`llm_batch_enabled`) and for any oracle behaviour — including a batch LLM
whose parsed dict misses items — every input item lands in exactly one of the
three buckets: the bucket sizes sum to the input length and the concatenated
buckets are a permutation of the input (item identity taken as
name/price/source-image). -/
theorem bucketing_completeness (env : ClassifierEnv) (st : Settings) (items : List MenuItem)
    (hb : 0 < st.llm_batch_size) :
    (ClassifierTool.execute env st items).vegetarian_items.length
      + (ClassifierTool.execute env st items).non_vegetarian_items.length
      + (ClassifierTool.execute env st items).uncertain_items.length = items.length
    ∧ List.Perm
        ((ClassifierTool.execute env st items).vegetarian_items.map projCI
          ++ (ClassifierTool.execute env st items).non_vegetarian_items.map projCI
          ++ (ClassifierTool.execute env st items).uncertain_items.map projCI)
        (items.map projItem) := by
  have hms : (((ClassifierTool.execute env st items).vegetarian_items.map projCI
        : Multiset (String × ℚ × ℕ)))
      + ((ClassifierTool.execute env st items).non_vegetarian_items.map projCI)
      + ((ClassifierTool.execute env st items).uncertain_items.map projCI)
      = (items.map projItem : List _) := by
    unfold ClassifierTool.execute
    by_cases h : st.llm_batch_enabled
    · rw [if_pos h]
      exact batch_buckets_multiset env st items hb
    · rw [if_neg h]
      exact seq_buckets_multiset st.hitl_threshold env.classifySingle items
  constructor
  · have hc := congrArg Multiset.card hms
    simp at hc
    omega
  · apply Multiset.coe_eq_coe.mp
    rw [← Multiset.coe_add, ← Multiset.coe_add]
    exact hms

/-- Witness for `bucketing_completeness`: sequential mode over one item with
all tiers abstaining. -/
theorem bucketing_completeness_witness :
    (ClassifierTool.execute abstainEnv seqSettings [⟨"Chef Mystery Bowl", 10, 1⟩]
        ).vegetarian_items.length
      + (ClassifierTool.execute abstainEnv seqSettings [⟨"Chef Mystery Bowl", 10, 1⟩]
        ).non_vegetarian_items.length
      + (ClassifierTool.execute abstainEnv seqSettings [⟨"Chef Mystery Bowl", 10, 1⟩]
        ).uncertain_items.length
      = [(⟨"Chef Mystery Bowl", 10, 1⟩ : MenuItem)].length
    ∧ List.Perm
        ((ClassifierTool.execute abstainEnv seqSettings [⟨"Chef Mystery Bowl", 10, 1⟩]
            ).vegetarian_items.map projCI
          ++ (ClassifierTool.execute abstainEnv seqSettings [⟨"Chef Mystery Bowl", 10, 1⟩]
            ).non_vegetarian_items.map projCI
          ++ (ClassifierTool.execute abstainEnv seqSettings [⟨"Chef Mystery Bowl", 10, 1⟩]
            ).uncertain_items.map projCI)
        ([(⟨"Chef Mystery Bowl", 10, 1⟩ : MenuItem)].map projItem) :=
  bucketing_completeness abstainEnv seqSettings [⟨"Chef Mystery Bowl", 10, 1⟩]
    (by show (0:ℕ) < 8; norm_num)

/-- Claim C4 amended: the sequential strategy lists `all_items` in exactly
the input order; the batch strategy lists first the pass-1-emitted items
(keyword-decisive or RAG-above-threshold) in input order and then the
LLM-deferred items in input order, so its `all_items` equals the input order
only when no emitted item follows a deferred one
(`batch_all_items_order_cex`). -/
theorem all_items_order_characterisation :
    (∀ (env : ClassifierEnv) (st : Settings) (items : List MenuItem),
      st.llm_batch_enabled = false →
      (ClassifierTool.execute env st items).all_items.map projAll = items.map projItem)
    ∧ (∀ (env : ClassifierEnv) (st : Settings) (items : List MenuItem),
      st.llm_batch_enabled = true → 0 < st.llm_batch_size →
      (ClassifierTool.execute env st items).all_items.map projAll
        = (items.filter (pass1Emits env st)).map projItem
          ++ (items.filter (pass1Defers env st)).map projItem) := by
  constructor
  · intro env st items h
    unfold ClassifierTool.execute
    rw [h]
    simp only [Bool.false_eq_true, if_false]
    exact seq_all_items_order st.hitl_threshold env.classifySingle items
  · intro env st items h hb
    unfold ClassifierTool.execute
    rw [h]
    simp only [if_true]
    exact batch_all_items_decomp env st items hb

/-- Witness for `all_items_order_characterisation` (sequential conjunct at a
concrete request). -/
theorem all_items_order_characterisation_witness :
    (ClassifierTool.execute abstainEnv seqSettings [⟨"Chef Mystery Bowl", 10, 1⟩]
        ).all_items.map projAll
      = [(⟨"Chef Mystery Bowl", 10, 1⟩ : MenuItem)].map projItem :=
  all_items_order_characterisation.1 abstainEnv seqSettings [⟨"Chef Mystery Bowl", 10, 1⟩] rfl

theorem cex_kw_mystery : LLMClassifier._keyword_classification ["(v)"] [] [] "Mystery Bowl"
    = ⟨none, 0, "No keyword match", "keyword"⟩ := by
  simp only [LLMClassifier._keyword_classification, List.find?_nil]
  rw [show List.find? (fun m => containsSeq m.toList (pyLower "Mystery Bowl").toList) ["(v)"]
      = none from by decide]

theorem cex_kw_tofu : LLMClassifier._keyword_classification ["(v)"] [] [] "Tofu (V)"
    = ⟨some true, 19/20, "Contains vegetarian marker: \x27(v)\x27", "keyword"⟩ := by
  simp only [LLMClassifier._keyword_classification, List.find?_nil]
  rw [show List.find? (fun m => containsSeq m.toList (pyLower "Tofu (V)").toList) ["(v)"]
      = some "(v)" from by decide]
  rfl

theorem cex_emits_mystery :
    pass1Emits cexEnv cexSettings ⟨"Mystery Bowl", 1, 1⟩ = false := by
  simp only [pass1Emits, cexEnv, cexSettings]
  rw [show (⟨"Mystery Bowl", 1, 1⟩ : MenuItem).name = "Mystery Bowl" from rfl]
  rw [cex_kw_mystery]
  norm_num [LLMClassifier._analyze_rag_evidence]

theorem cex_defers_mystery :
    pass1Defers cexEnv cexSettings ⟨"Mystery Bowl", 1, 1⟩ = true := by
  simp only [pass1Defers, cexEnv, cexSettings]
  rw [show (⟨"Mystery Bowl", 1, 1⟩ : MenuItem).name = "Mystery Bowl" from rfl]
  rw [cex_kw_mystery]
  norm_num [LLMClassifier._analyze_rag_evidence]

theorem cex_emits_tofu :
    pass1Emits cexEnv cexSettings ⟨"Tofu (V)", 2, 1⟩ = true := by
  simp only [pass1Emits, cexEnv, cexSettings]
  rw [show (⟨"Tofu (V)", 2, 1⟩ : MenuItem).name = "Tofu (V)" from rfl]
  rw [cex_kw_tofu]
  norm_num

theorem cex_defers_tofu :
    pass1Defers cexEnv cexSettings ⟨"Tofu (V)", 2, 1⟩ = false := by
  simp only [pass1Defers, cexEnv, cexSettings]
  rw [show (⟨"Tofu (V)", 2, 1⟩ : MenuItem).name = "Tofu (V)" from rfl]
  rw [cex_kw_tofu]
  norm_num

/-- Claim C4 counterexample: with the batch strategy, an LLM-deferred item
(`"Mystery Bowl"`, no keyword, empty RAG) followed by a keyword-decided item
(`"Tofu (V)"`) yields `all_items` in the order Tofu-then-Mystery — not the
input order: deferred items are appended only after pass 1. -/
theorem batch_all_items_order_cex :
    (ClassifierTool._execute_with_batch cexEnv cexSettings
        [⟨"Mystery Bowl", 1, 1⟩, ⟨"Tofu (V)", 2, 1⟩]).all_items.map projAll
      ≠ [(⟨"Mystery Bowl", 1, 1⟩ : MenuItem), ⟨"Tofu (V)", 2, 1⟩].map projItem := by
  rw [batch_all_items_decomp cexEnv cexSettings _ (by show (0:ℕ) < 8; norm_num)]
  rw [show List.filter (pass1Emits cexEnv cexSettings)
      [⟨"Mystery Bowl", 1, 1⟩, ⟨"Tofu (V)", 2, 1⟩] = [⟨"Tofu (V)", 2, 1⟩] from by
    simp [List.filter_cons, cex_emits_mystery, cex_emits_tofu]]
  rw [show List.filter (pass1Defers cexEnv cexSettings)
      [⟨"Mystery Bowl", 1, 1⟩, ⟨"Tofu (V)", 2, 1⟩] = [⟨"Mystery Bowl", 1, 1⟩] from by
    simp [List.filter_cons, cex_defers_mystery, cex_defers_tofu]]
  simp only [List.map_cons, List.map_nil, List.cons_append, List.nil_append, projItem]
  intro h
  have := List.head_eq_of_cons_eq h
  simp at this
